import Mathlib

/-!
Verification of the OpenDisplay OTA/DFU protocol engines.

Shallow embedding of `custom_components/opendisplay/ble/esp32_ota.py` and
`custom_components/opendisplay/ble/nrf_dfu.py`:
  * Python `bytes` are modelled as `List Nat` (each element a byte value);
  * Python `str` (container entry names) are modelled as `List Char`;
  * fallible code returns `Except`;
  * the BLE peer is modelled as an oracle `Nat → List Nat → List Nat`
    mapping (index of the command write, command payload) to the raw
    response bytes the device answers with;
  * each engine run additionally returns the trace of characteristic
    writes and of progress-callback invocations, in issue order.
-/

namespace OpenDisplay

/-- Little-endian 4-byte encoding, `struct.pack("<I", n)`
(the Python call requires `n < 2^32`; firmware sizes satisfy this). -/
def le32 (n : Nat) : List Nat :=
  [n % 256, n / 256 % 256, n / 65536 % 256, n / 16777216 % 256]

/-- Little-endian 2-byte encoding, the `H` field of `struct.pack("<BH", ...)`. -/
def le16 (n : Nat) : List Nat :=
  [n % 256, n / 256 % 256]

/-! ## ESP32 OTA engine (`esp32_ota.py`)

Command frames and acknowledgement shape are those documented in the
module docstring of `esp32_ota.py`:
  `HA → [0x00, 0x46, size bytes] → ACK {0x00, 0x46}` etc.
The constants `CMD_OTA_*`, `RESP_SUCCESS`, `RESP_ERROR` are imported by
`esp32_ota.py` from `protocol_open_display` (not part of the sources);
modelled from the spec and the docstring: success status `0x00` as shown
in the ACK frames, and a distinct explicit device error status. -/

def RESP_SUCCESS : Nat := 0x00

/-- Modelled from the spec: the device's explicit error status, a byte
value distinct from `RESP_SUCCESS` (`protocol_open_display` is not among
the sources; no claim depends on the exact value). -/
def RESP_ERROR : Nat := 0x01

def CMD_OTA_START : List Nat := [0x00, 0x46]
def CMD_OTA_DATA : List Nat := [0x00, 0x47]
def CMD_OTA_END : List Nat := [0x00, 0x48]

/-- Maximum firmware data bytes per BLE write. -/
def ESP32_OTA_CHUNK_SIZE : Nat := 200

/-- The three distinct `RuntimeError` raise sites of `_check_ota_response`. -/
inductive OtaError
  /-- "OTA response too short" -/
  | tooShort
  /-- "Device rejected OTA command ... (not supported on this platform)" -/
  | rejected
  /-- "Unexpected OTA response" -/
  | unexpected
deriving DecidableEq, Repr

/-- `_check_ota_response(response, expected_cmd)`: after the length guard
(`len(response) < 2`), the source reads `status = response[0]` and
`cmd_echo = response[1]`, so a response of length ≥ 2 is matched as
`status :: cmd_echo :: _`. -/
def check_ota_response (response : List Nat) (expected_cmd : Nat) :
    Except OtaError Unit :=
  match response with
  | status :: cmd_echo :: _ =>
    if status = RESP_ERROR then
      .error .rejected
    else if status ≠ RESP_SUCCESS ∨ cmd_echo ≠ expected_cmd then
      .error .unexpected
    else
      .ok ()
  | _ => .error .tooShort

/-! ## Nordic DFU engine (`nrf_dfu.py`): constants and response check -/

namespace DfuOpcode

def CREATE : Nat := 0x01
def SET_PRN : Nat := 0x02
def CALCULATE_CRC : Nat := 0x03
def EXECUTE : Nat := 0x04
def SELECT : Nat := 0x06
def RESPONSE : Nat := 0x60

end DfuOpcode

namespace DfuObjectType

def COMMAND : Nat := 0x01
def DATA : Nat := 0x02

end DfuObjectType

namespace DfuResult

def SUCCESS : Nat := 0x01
def INVALID : Nat := 0x02
def NOT_SUPPORTED : Nat := 0x03
def INVALID_SIZE : Nat := 0x04
def CRC_ERROR : Nat := 0x05
def OPERATION_FAILED : Nat := 0x0A

end DfuResult

def DFU_DATA_OBJECT_MAX_SIZE : Nat := 4096

/-- The distinct raise sites of `nrf_dfu.py` (all `BleakError` except the
parser's `ValueError`). -/
inductive NrfError
  /-- "DFU response too short" -/
  | tooShort
  /-- "Expected response opcode 0x60, got ..." -/
  | badResponseOpcode
  /-- "Response for wrong opcode" -/
  | wrongOpcode
  /-- "DFU operation failed with result code ..." -/
  | failedResult
  /-- `ValueError("DFU package missing .dat or .bin file")` -/
  | packageMissing
deriving DecidableEq, Repr

/-- `NordicDfuController._check_response(response, expected_opcode)`:
after the length guard (`len(response) < 3`), the source reads
`response[0]`, `response[1]`, `response[2]`, so a response of length ≥ 3
is matched as `b0 :: b1 :: b2 :: _`. -/
def check_response (response : List Nat) (expected_opcode : Nat) :
    Except NrfError Unit :=
  match response with
  | b0 :: b1 :: b2 :: _ =>
    if b0 ≠ DfuOpcode.RESPONSE then
      .error .badResponseOpcode
    else if b1 ≠ expected_opcode then
      .error .wrongOpcode
    else if b2 ≠ DfuResult.SUCCESS then
      .error .failedResult
    else
      .ok ()
  | _ => .error .tooShort

/-- `Except.isError`: discriminates the error constructor. -/
def isErr {ε α : Type} : Except ε α → Bool
  | .error _ => true
  | .ok _ => false

/-! ## DFU package parser (`parse_dfu_package`)

The zip container is modelled as its entry list in enumeration order
(`zf.namelist()` order), each entry a `(name, content)` pair. -/

/-- Python `s.endswith(suffix)` on `str`, modelled over `List Char`:
true iff the last `len(suffix)` characters of `s` equal `suffix`. -/
def pyEndsWith (s suffix : List Char) : Bool :=
  suffix == s.drop (s.length - suffix.length)

def datExt : List Char := ".dat".toList

def binExt : List Char := ".bin".toList

/-- Parsed DFU package (`@dataclass DfuPackage`). -/
structure DfuPackage where
  init_packet : List Nat
  firmware : List Nat
deriving DecidableEq, Repr

/-- The `for name in zf.namelist()` loop of `parse_dfu_package`: the
mutable `dat_file` / `bin_file` locals are the accumulator pair, with
`none` standing for Python `None`.  Note the `elif`: a name ending in
`.dat` is never also tested against `.bin`. -/
def scanEntries (entries : List (List Char × List Nat))
    (acc : Option (List Nat) × Option (List Nat)) :
    Option (List Nat) × Option (List Nat) :=
  match entries with
  | [] => acc
  | e :: rest =>
    if pyEndsWith e.1 datExt then scanEntries rest (some e.2, acc.2)
    else if pyEndsWith e.1 binExt then scanEntries rest (acc.1, some e.2)
    else scanEntries rest acc

/-- Python truthiness of `Optional[bytes]` as used by
`if not dat_file or not bin_file`: `not x` is true both for `None` and
for empty `bytes`. -/
def pyFalsy : Option (List Nat) → Bool
  | none => true
  | some b => b.isEmpty

/-- `parse_dfu_package(zip_data)` over the container's entry list. -/
def parse_dfu_package (entries : List (List Char × List Nat)) :
    Except NrfError DfuPackage :=
  let acc := scanEntries entries (none, none)
  if pyFalsy acc.1 || pyFalsy acc.2 then
    .error .packageMissing
  else
    .ok ⟨acc.1.getD [], acc.2.getD []⟩

/-- A container with two `.dat` entries (used as a concrete instance). -/
def twoDatContainer : List (List Char × List Nat) :=
  [("a.dat".toList, [1]), ("b.dat".toList, [2]), ("c.bin".toList, [3])]

/-- A well-formed container: manifest plus one `.dat` and one `.bin`. -/
def wellFormedContainer : List (List Char × List Nat) :=
  [("manifest.json".toList, [9]), ("a.dat".toList, [1]), ("b.bin".toList, [2, 3])]

/-- A container with no `.bin` entry. -/
def datOnlyContainer : List (List Char × List Nat) :=
  [("a.dat".toList, [1])]

/-- A container whose `.bin` entry has zero-length content. -/
def emptyBinContainer : List (List Char × List Nat) :=
  [("a.dat".toList, [1]), ("b.bin".toList, [])]

/-! ## ESP32 OTA engine: transfer -/

/-- Per-update trace of an ESP32 OTA run: the payloads passed to
`connection.write_command_with_response` in issue order, and the
`progress_callback` invocations in issue order. -/
structure Esp32Trace where
  writes : List (List Nat)
  progress : List (Nat × Nat)
deriving DecidableEq, Repr

/-- The `while offset < total_size` loop of `perform_esp32_ota`, acting
on the remaining suffix `firmware_data[offset:]`: the loop guard
`offset < total_size` is `remaining ≠ []`, the slice
`firmware_data[offset : offset + ESP32_OTA_CHUNK_SIZE]` is
`remaining.take ESP32_OTA_CHUNK_SIZE`, and `offset += len(chunk)` both
drops the chunk and advances `sent`.  `dev` is the response oracle
(indexed by `k`, the number of command writes already issued).  Returns
the DATA payloads written, the progress-callback invocations, and the
final write index. -/
def esp32DataLoop (dev : Nat → List Nat → List Nat) (remaining : List Nat)
    (sent total k : Nat) :
    Except OtaError (List (List Nat) × List (Nat × Nat) × Nat) :=
  if hr : remaining = [] then
    .ok ([], [], k)
  else
    match check_ota_response
        (dev k (CMD_OTA_DATA ++ remaining.take ESP32_OTA_CHUNK_SIZE)) 0x47 with
    | .error e => .error e
    | .ok _ =>
      match esp32DataLoop dev (remaining.drop ESP32_OTA_CHUNK_SIZE)
          (sent + (remaining.take ESP32_OTA_CHUNK_SIZE).length) total (k + 1) with
      | .error e => .error e
      | .ok (writes, prog, k') =>
        .ok ((CMD_OTA_DATA ++ remaining.take ESP32_OTA_CHUNK_SIZE) :: writes,
          (sent + (remaining.take ESP32_OTA_CHUNK_SIZE).length, total) :: prog, k')
termination_by remaining.length
decreasing_by
  have hl : 0 < remaining.length := List.length_pos.mpr hr
  simp only [List.length_drop, ESP32_OTA_CHUNK_SIZE]
  omega

/-- `perform_esp32_ota(connection, firmware_data, progress_callback)`:
START with the little-endian total size (`total_size = len(firmware_data)`),
the chunked DATA loop, then END.  Returns `True` together with the
write/progress trace. -/
def perform_esp32_ota (dev : Nat → List Nat → List Nat)
    (firmware_data : List Nat) : Except OtaError (Bool × Esp32Trace) :=
  match check_ota_response
      (dev 0 (CMD_OTA_START ++ le32 firmware_data.length)) 0x46 with
  | .error e => .error e
  | .ok _ =>
    match esp32DataLoop dev firmware_data 0 firmware_data.length 1 with
    | .error e => .error e
    | .ok (dataWrites, prog, k') =>
      match check_ota_response (dev k' CMD_OTA_END) 0x48 with
      | .error e => .error e
      | .ok _ =>
        .ok (true, ⟨(CMD_OTA_START ++ le32 firmware_data.length) ::
          dataWrites ++ [CMD_OTA_END], prog⟩)

/-- The DATA command payloads of a trace: the writes whose 2-byte command
code is `CMD_OTA_DATA`, with the code stripped off. -/
def dataPayloads (tr : Esp32Trace) : List (List Nat) :=
  tr.writes.filterMap fun w =>
    if w.take 2 = CMD_OTA_DATA then some (w.drop 2) else none

/-- A device that acknowledges every ESP32 OTA command: responds
`[RESP_SUCCESS, echoed command byte]` (the `ACK {0x00, cmd}` frames of
the module docstring). -/
def ackDev : Nat → List Nat → List Nat :=
  fun _ payload => [RESP_SUCCESS, payload.getD 1 0]

/-- The trace of a successful 3-byte ESP32 OTA run. -/
def esp32SmallTrace : Esp32Trace :=
  ⟨[CMD_OTA_START ++ le32 3, CMD_OTA_DATA ++ [1, 2, 3], CMD_OTA_END], [(3, 3)]⟩

/-! ## Nordic DFU engine: transfer -/

/-- The `while offset < len(data)` loop of
`NordicDfuController._write_data`, acting on the remaining suffix: each
iteration writes `data[offset : offset + chunk_size]`
(`remaining.take chunk_size`) and advances by the chunk length.  The
`chunk_size = 0` guard is unreachable from `write_data` (there
`chunk_size = min(len(data), 200)`, positive whenever the loop is
entered); in Python a zero chunk size would simply never terminate. -/
def writeDataLoop (chunk_size : Nat) (data : List Nat) : List (List Nat) :=
  if hd : data = [] then []
  else if hc : chunk_size = 0 then []
  else data.take chunk_size :: writeDataLoop chunk_size (data.drop chunk_size)
termination_by data.length
decreasing_by
  have hl : 0 < data.length := List.length_pos.mpr hd
  simp only [List.length_drop]
  omega

/-- `NordicDfuController._write_data(data)`: stream `data` to the DFU
packet characteristic in sub-chunks of `min(len(data), 200)` bytes
(write without response); returns the sub-chunks in write order. -/
def write_data (data : List Nat) : List (List Nat) :=
  writeDataLoop (min data.length 200) data

/-- One firmware data object as transferred by `send_firmware`: the
CREATE command bytes, the declared object size, and the sub-chunks
streamed to the data characteristic between CREATE and CALCULATE_CRC. -/
structure NrfObject where
  create : List Nat
  size : Nat
  chunks : List (List Nat)
deriving DecidableEq, Repr

/-- The `while offset < total_size` loop of
`NordicDfuController.send_firmware`: per object,
`object_size = min(DFU_DATA_OBJECT_MAX_SIZE, remaining)`, then
CREATE(DATA, object_size) / stream `firmware[offset : offset + object_size]`
/ CALCULATE_CRC / EXECUTE, each control-point response validated; then
`offset += object_size` and a progress callback `(offset, total_size)`.
`dev` is the control-point response oracle indexed by the running
control-point write count `k`. -/
def sendFirmwareLoop (dev : Nat → List Nat → List Nat) (firmware : List Nat)
    (total offset k : Nat) :
    Except NrfError (List NrfObject × List (Nat × Nat) × Nat) :=
  if ho : offset < total then
    match check_response (dev k ([DfuOpcode.CREATE, DfuObjectType.DATA] ++
        le32 (min DFU_DATA_OBJECT_MAX_SIZE (total - offset))))
        DfuOpcode.CREATE with
    | .error e => .error e
    | .ok _ =>
      match check_response (dev (k + 1) [DfuOpcode.CALCULATE_CRC])
          DfuOpcode.CALCULATE_CRC with
      | .error e => .error e
      | .ok _ =>
        match check_response (dev (k + 2) [DfuOpcode.EXECUTE])
            DfuOpcode.EXECUTE with
        | .error e => .error e
        | .ok _ =>
          match sendFirmwareLoop dev firmware total
              (offset + min DFU_DATA_OBJECT_MAX_SIZE (total - offset))
              (k + 3) with
          | .error e => .error e
          | .ok (objs, prog, k') =>
            .ok (⟨[DfuOpcode.CREATE, DfuObjectType.DATA] ++
                le32 (min DFU_DATA_OBJECT_MAX_SIZE (total - offset)),
                min DFU_DATA_OBJECT_MAX_SIZE (total - offset),
                write_data ((firmware.drop offset).take
                  (min DFU_DATA_OBJECT_MAX_SIZE (total - offset)))⟩ :: objs,
              (offset + min DFU_DATA_OBJECT_MAX_SIZE (total - offset), total)
                :: prog, k')
  else .ok ([], [], k)
termination_by total - offset
decreasing_by
  simp only [DFU_DATA_OBJECT_MAX_SIZE]
  omega

/-- `NordicDfuController.send_firmware(firmware, progress_callback)`:
SELECT(DATA), then the data-object loop with
`total_size = len(firmware)`.  Returns the objects, the
progress-callback invocations, and the final control-point write
index. -/
def send_firmware (dev : Nat → List Nat → List Nat) (firmware : List Nat)
    (k : Nat) : Except NrfError (List NrfObject × List (Nat × Nat) × Nat) :=
  match check_response (dev k [DfuOpcode.SELECT, DfuObjectType.DATA])
      DfuOpcode.SELECT with
  | .error e => .error e
  | .ok _ => sendFirmwareLoop dev firmware firmware.length 0 (k + 1)

/-- `NordicDfuController.start()`: subscribe to control-point
notifications and send `SET_PRN(0)` (`struct.pack("<BH", SET_PRN, 0)`),
validating the response. -/
def dfuStart (dev : Nat → List Nat → List Nat) (k : Nat) :
    Except NrfError (List (List Nat) × Nat) :=
  match check_response (dev k ([DfuOpcode.SET_PRN] ++ le16 0))
      DfuOpcode.SET_PRN with
  | .error e => .error e
  | .ok _ => .ok ([[DfuOpcode.SET_PRN] ++ le16 0], k + 1)

/-- `NordicDfuController.send_init_packet(init_packet)`:
SELECT(COMMAND) → CREATE(COMMAND, len) → stream the init packet →
CALCULATE_CRC → EXECUTE, each control-point response validated.
Returns the control-point writes, the streamed sub-chunks, and the next
control-point write index. -/
def send_init_packet (dev : Nat → List Nat → List Nat)
    (init_packet : List Nat) (k : Nat) :
    Except NrfError (List (List Nat) × List (List Nat) × Nat) :=
  match check_response (dev k [DfuOpcode.SELECT, DfuObjectType.COMMAND])
      DfuOpcode.SELECT with
  | .error e => .error e
  | .ok _ =>
    match check_response (dev (k + 1)
        ([DfuOpcode.CREATE, DfuObjectType.COMMAND] ++
          le32 init_packet.length)) DfuOpcode.CREATE with
    | .error e => .error e
    | .ok _ =>
      match check_response (dev (k + 2) [DfuOpcode.CALCULATE_CRC])
          DfuOpcode.CALCULATE_CRC with
      | .error e => .error e
      | .ok _ =>
        match check_response (dev (k + 3) [DfuOpcode.EXECUTE])
            DfuOpcode.EXECUTE with
        | .error e => .error e
        | .ok _ =>
          .ok ([[DfuOpcode.SELECT, DfuObjectType.COMMAND],
              [DfuOpcode.CREATE, DfuObjectType.COMMAND] ++
                le32 init_packet.length,
              [DfuOpcode.CALCULATE_CRC], [DfuOpcode.EXECUTE]],
            write_data init_packet, k + 4)

/-- Trace of a full DFU update attempt: control-point command payloads,
data-characteristic sub-chunk writes, and progress invocations, each in
issue order. -/
structure DfuTrace where
  ctrl : List (List Nat)
  dataWrites : List (List Nat)
  progress : List (Nat × Nat)
deriving DecidableEq, Repr

/-- `perform_dfu_update(mac_address, dfu_package_data, progress_callback,
scan_timeout)`: parse the package (a `ValueError` propagates), then scan
for the DFU bootloader — `scanResult` is the outcome of
`BleakScanner.find_device_by_filter` against the DFU filter (service
UUID or "dfu" in the local name), `none` when nothing matched within the
timeout, in which case the source logs an error and does `return False`
with no DFU protocol traffic — then connect and run `start` /
`send_init_packet` / `send_firmware`.  `stop()` only unsubscribes
notifications (best effort) and leaves no trace. -/
def perform_dfu_update (scanResult : Option Unit)
    (dev : Nat → List Nat → List Nat)
    (container : List (List Char × List Nat)) :
    Except NrfError (Bool × DfuTrace) :=
  match parse_dfu_package container with
  | .error e => .error e
  | .ok pkg =>
    match scanResult with
    | none => .ok (false, ⟨[], [], []⟩)
    | some _ =>
      match dfuStart dev 0 with
      | .error e => .error e
      | .ok (ctrl0, k0) =>
        match send_init_packet dev pkg.init_packet k0 with
        | .error e => .error e
        | .ok (ctrl1, data1, k1) =>
          match send_firmware dev pkg.firmware k1 with
          | .error e => .error e
          | .ok (objs, prog, _) =>
            .ok (true, ⟨ctrl0 ++ ctrl1 ++
                [[DfuOpcode.SELECT, DfuObjectType.DATA]] ++
                (objs.map fun o => [o.create, [DfuOpcode.CALCULATE_CRC],
                  [DfuOpcode.EXECUTE]]).flatten,
              data1 ++ (objs.map fun o => o.chunks).flatten, prog⟩)

/-- A device that acknowledges every DFU control-point command: responds
`[RESPONSE (0x60), echoed opcode, SUCCESS]`. -/
def nrfAckDev : Nat → List Nat → List Nat :=
  fun _ payload => [DfuOpcode.RESPONSE, payload.getD 0 0, DfuResult.SUCCESS]

/-- The single data object of a successful 1-byte Nordic firmware
transfer. -/
def nrfSmallObjects : List NrfObject :=
  [⟨[DfuOpcode.CREATE, DfuObjectType.DATA] ++ le32 1, 1, [[7]]⟩]

end OpenDisplay

namespace OpenDisplay

/-! ## Theorems: response validators -/

/-- C4: a response shorter than the minimum frame length — fewer than 2
bytes for the ESP32 validator, fewer than 3 for the Nordic validator —
makes response validation raise a protocol error; it never returns
successfully on such a response. -/
theorem short_response_always_errors
    (r : List Nat) (cmd op : Nat) :
    (r.length < 2 → check_ota_response r cmd = .error .tooShort) ∧
    (r.length < 3 → check_response r op = .error .tooShort) := by
  constructor
  · intro h
    match r, h with
    | [], _ => rfl
    | [_], _ => rfl
  · intro h
    match r, h with
    | [], _ => rfl
    | [_], _ => rfl
    | [_, _], _ => rfl

/-- C4 witness: concrete short responses are rejected. -/
theorem short_response_always_errors_witness :
    ([(5 : Nat)].length < 2 ∧
      check_ota_response [5] 0x46 = .error .tooShort) ∧
    ([(0x60 : Nat), 0x01].length < 3 ∧
      check_response [0x60, 0x01] 0x01 = .error .tooShort) :=
  ⟨⟨by decide, (short_response_always_errors [5] 0x46 0x01).1 (by decide)⟩,
   ⟨by decide, (short_response_always_errors [0x60, 0x01] 0x46 0x01).2 (by decide)⟩⟩

/-- C5: an ESP32 response of at least 2 bytes whose status byte equals the
device's error code makes `_check_ota_response` raise the rejection
("not supported on this platform") error, for every value of the echoed
command byte and every expected command. -/
theorem esp32_error_status_always_rejected
    (echo : Nat) (rest : List Nat) (cmd : Nat) :
    check_ota_response (RESP_ERROR :: echo :: rest) cmd = .error .rejected := by
  simp [check_ota_response]

/-- C6: a Nordic response of at least 3 bytes whose echoed opcode (byte 1)
differs from the opcode just sent makes `_check_response` raise an error,
even when the result code (byte 2) equals SUCCESS. -/
theorem nrf_wrong_opcode_always_errors
    (b0 b1 b2 : Nat) (rest : List Nat) (op : Nat) (h : b1 ≠ op) :
    isErr (check_response (b0 :: b1 :: b2 :: rest) op) = true := by
  unfold check_response
  by_cases h0 : b0 = DfuOpcode.RESPONSE <;> simp [h0, h, isErr]

/-- C6 witness: a well-framed response echoing opcode 0x03 with result
SUCCESS is still an error when opcode 0x04 was sent. -/
theorem nrf_wrong_opcode_always_errors_witness :
    (0x03 : Nat) ≠ 0x04 ∧
    isErr (check_response [0x60, 0x03, DfuResult.SUCCESS] 0x04) = true :=
  ⟨by decide, nrf_wrong_opcode_always_errors 0x60 0x03 DfuResult.SUCCESS [] 0x04 (by decide)⟩

/-! ## Theorems: DFU package parser -/

theorem pyEndsWith_iff (s suffix : List Char) :
    pyEndsWith s suffix = true ↔ suffix <:+ s := by
  unfold pyEndsWith
  rw [beq_iff_eq]
  constructor
  · intro h
    rw [h]
    exact List.drop_suffix _ _
  · rintro ⟨t, rfl⟩
    rw [List.length_append, Nat.add_sub_cancel, List.drop_left]

/-- No entry name ends both in `.dat` and in `.bin`. -/
theorem pyEndsWith_dat_not_bin (s : List Char)
    (hd : pyEndsWith s datExt = true) : pyEndsWith s binExt = false := by
  by_contra hb
  rw [Bool.not_eq_false, pyEndsWith_iff] at hb
  rw [pyEndsWith_iff] at hd
  obtain ⟨t1, h1⟩ := hd
  obtain ⟨t2, h2⟩ := hb
  rw [← h2] at h1
  have : datExt = binExt := List.append_inj_right' h1 (by decide)
  exact absurd this (by decide)

/-- The `elif` branch predicate coincides with plain `.bin` matching. -/
theorem filter_bin_elif (entries : List (List Char × List Nat)) :
    (entries.filter fun e => !pyEndsWith e.1 datExt && pyEndsWith e.1 binExt) =
      entries.filter fun e => pyEndsWith e.1 binExt := by
  apply List.filter_congr
  intro e _
  by_cases hb : pyEndsWith e.1 binExt = true
  · by_cases hd : pyEndsWith e.1 datExt = true
    · exact absurd hb (by simp [pyEndsWith_dat_not_bin e.1 hd])
    · simp [hb, hd]
  · simp [Bool.eq_false_iff.mpr hb]

/-- The optional last element of a nonempty list is always present. -/
theorem lastOfCons {α : Type} (x : α) (xs : List α) :
    ∃ y, (x :: xs).getLast? = some y := by
  induction xs generalizing x with
  | nil => exact ⟨x, rfl⟩
  | cons z zs ih =>
    obtain ⟨y, hy⟩ := ih z
    exact ⟨y, by rw [List.getLast?_cons_cons, hy]⟩

theorem scanEntries_fst (entries : List (List Char × List Nat))
    (acc : Option (List Nat) × Option (List Nat)) :
    (scanEntries entries acc).1 =
      ((entries.filter fun e => pyEndsWith e.1 datExt).getLast?).elim
        acc.1 (fun e => some e.2) := by
  induction entries generalizing acc with
  | nil => rfl
  | cons e rest ih =>
    by_cases hd : pyEndsWith e.1 datExt = true
    · rw [scanEntries, if_pos hd, ih, List.filter_cons, if_pos hd]
      cases hrest : rest.filter fun x => pyEndsWith x.1 datExt with
      | nil => rfl
      | cons x xs =>
        obtain ⟨y, hy⟩ := lastOfCons x xs
        rw [List.getLast?_cons_cons, hy]
        rfl
    · by_cases hb : pyEndsWith e.1 binExt = true
      · rw [scanEntries, if_neg (by simp [hd]), if_pos hb, ih,
          List.filter_cons, if_neg (by simp [hd])]
      · rw [scanEntries, if_neg (by simp [hd]), if_neg (by simp [hb]), ih,
          List.filter_cons, if_neg (by simp [hd])]

theorem scanEntries_snd (entries : List (List Char × List Nat))
    (acc : Option (List Nat) × Option (List Nat)) :
    (scanEntries entries acc).2 =
      ((entries.filter fun e => !pyEndsWith e.1 datExt && pyEndsWith e.1 binExt).getLast?).elim
        acc.2 (fun e => some e.2) := by
  induction entries generalizing acc with
  | nil => rfl
  | cons e rest ih =>
    by_cases hd : pyEndsWith e.1 datExt = true
    · rw [scanEntries, if_pos hd, ih,
        List.filter_cons, if_neg (by simp [hd])]
    · by_cases hb : pyEndsWith e.1 binExt = true
      · rw [scanEntries, if_neg (by simp [hd]), if_pos hb, ih,
          List.filter_cons, if_pos (by simp [hd, hb])]
        cases hrest : rest.filter fun x => !pyEndsWith x.1 datExt && pyEndsWith x.1 binExt with
        | nil => rfl
        | cons x xs =>
          obtain ⟨y, hy⟩ := lastOfCons x xs
          rw [List.getLast?_cons_cons, hy]
          rfl
      · rw [scanEntries, if_neg (by simp [hd]), if_neg (by simp [hb]), ih,
          List.filter_cons, if_neg (by simp [hd, hb])]

/-- The final value of the loop's `dat_file` local. -/
theorem parse_acc_fst (entries : List (List Char × List Nat)) :
    (scanEntries entries (none, none)).1 =
      ((entries.filter fun e => pyEndsWith e.1 datExt).getLast?).map Prod.snd := by
  rw [scanEntries_fst]
  cases (entries.filter fun e => pyEndsWith e.1 datExt).getLast? <;> rfl

/-- The final value of the loop's `bin_file` local. -/
theorem parse_acc_snd (entries : List (List Char × List Nat)) :
    (scanEntries entries (none, none)).2 =
      ((entries.filter fun e => pyEndsWith e.1 binExt).getLast?).map Prod.snd := by
  rw [scanEntries_snd, filter_bin_elif]
  cases (entries.filter fun e => pyEndsWith e.1 binExt).getLast? <;> rfl

/-- C7: when the container holds several `.dat` (resp. `.bin`) entries and
parsing succeeds, the returned init packet (resp. firmware) is the content
of the last such entry in enumeration order. -/
theorem parse_dfu_last_entry_wins (entries : List (List Char × List Nat))
    (pkg : DfuPackage) (h : parse_dfu_package entries = .ok pkg) :
    ((entries.filter fun e => pyEndsWith e.1 datExt).getLast?).map Prod.snd =
      some pkg.init_packet ∧
    ((entries.filter fun e => pyEndsWith e.1 binExt).getLast?).map Prod.snd =
      some pkg.firmware := by
  simp only [parse_dfu_package] at h
  rw [parse_acc_fst] at h
  rw [parse_acc_snd] at h
  cases hdat : (entries.filter fun e => pyEndsWith e.1 datExt).getLast? with
  | none => rw [hdat] at h; simp [pyFalsy] at h
  | some d =>
    cases hbin : (entries.filter fun e => pyEndsWith e.1 binExt).getLast? with
    | none => rw [hdat, hbin] at h; simp [pyFalsy] at h
    | some b =>
      rw [hdat, hbin] at h
      by_cases hfd : pyFalsy (some d.2) = true
      · simp [hfd] at h
      · by_cases hfb : pyFalsy (some b.2) = true
        · simp [hfd, hfb] at h
        · rw [if_neg (by simp [hfd, hfb])] at h
          injection h with h
          rw [← h]
          exact ⟨rfl, rfl⟩

/-- C7 witness: a container with two `.dat` entries; the second one's
content becomes the init packet. -/
theorem parse_dfu_last_entry_wins_witness :
    parse_dfu_package twoDatContainer = .ok ⟨[2], [3]⟩ ∧
    ((twoDatContainer.filter
        fun e => pyEndsWith e.1 datExt).getLast?).map Prod.snd = some [2] ∧
    ((twoDatContainer.filter
        fun e => pyEndsWith e.1 binExt).getLast?).map Prod.snd = some [3] :=
  ⟨rfl, (parse_dfu_last_entry_wins twoDatContainer ⟨[2], [3]⟩ rfl).1,
    (parse_dfu_last_entry_wins twoDatContainer ⟨[2], [3]⟩ rfl).2⟩

/-- C3 counterexample: a container holding both a `.dat` and a `.bin`
entry, the `.dat` one with zero-length content.  The claim says parsing
still succeeds; the code's `if not dat_file` treats empty `bytes` as
missing (Python truthiness) and raises the format error. -/
theorem parse_dfu_zero_length_fails :
    parse_dfu_package [("init.dat".toList, []), ("fw.bin".toList, [1])] =
      .error .packageMissing := rfl

/-- C3 amended: a container with exactly one `.dat` and one `.bin` entry,
both with nonempty content, parses into exactly those contents; a
container missing either entry raises the format error; and a container
where the (last) `.dat` or `.bin` entry has zero-length content also
raises the format error (empty content is treated as missing). -/
theorem parse_dfu_package_contract :
    (∀ (entries : List (List Char × List Nat)) (d b : List Char × List Nat),
      (entries.filter fun e => pyEndsWith e.1 datExt) = [d] →
      (entries.filter fun e => pyEndsWith e.1 binExt) = [b] →
      d.2 ≠ [] → b.2 ≠ [] →
      parse_dfu_package entries = .ok ⟨d.2, b.2⟩) ∧
    (∀ entries : List (List Char × List Nat),
      (entries.filter fun e => pyEndsWith e.1 datExt) = [] ∨
      (entries.filter fun e => pyEndsWith e.1 binExt) = [] →
      parse_dfu_package entries = .error .packageMissing) ∧
    (∀ (entries : List (List Char × List Nat)) (d : List Char × List Nat),
      ((entries.filter fun e => pyEndsWith e.1 datExt).getLast? = some d ∨
       (entries.filter fun e => pyEndsWith e.1 binExt).getLast? = some d) →
      d.2 = [] →
      parse_dfu_package entries = .error .packageMissing) := by
  refine ⟨?_, ?_, ?_⟩
  · intro entries d b hd hb hdne hbne
    simp only [parse_dfu_package]
    rw [parse_acc_fst, parse_acc_snd, hd, hb]
    rw [if_neg]
    · rfl
    · simp [pyFalsy, List.getLast?_singleton, hdne, hbne]
  · intro entries h
    simp only [parse_dfu_package]
    rw [parse_acc_fst, parse_acc_snd]
    rcases h with h | h <;> rw [h] <;> simp [pyFalsy]
  · intro entries d h hde
    simp only [parse_dfu_package]
    rw [parse_acc_fst, parse_acc_snd]
    rcases h with h | h <;> rw [h] <;> simp [pyFalsy, hde]

/-- C3 amended witness: a well-formed container parses byte-for-byte; a
container without a `.bin` entry, and a container whose `.bin` entry is
empty, each raise the format error. -/
theorem parse_dfu_package_contract_witness :
    parse_dfu_package wellFormedContainer = .ok ⟨[1], [2, 3]⟩ ∧
    parse_dfu_package datOnlyContainer = .error .packageMissing ∧
    parse_dfu_package emptyBinContainer = .error .packageMissing :=
  ⟨parse_dfu_package_contract.1 wellFormedContainer
      ("a.dat".toList, [1]) ("b.bin".toList, [2, 3])
      rfl rfl (by decide) (by decide),
    parse_dfu_package_contract.2.1 datOnlyContainer (Or.inr rfl),
    parse_dfu_package_contract.2.2 emptyBinContainer
      ("b.bin".toList, []) (Or.inr rfl) rfl⟩

/-- C10: both validators inspect only a fixed-length leading slice of the
response — the first 2 bytes (ESP32) and the first 3 bytes (Nordic) — so
appending any trailing bytes never changes the verdict; in particular a
response whose leading slice is valid for the sent command validates
successfully with any trailing bytes appended. -/
theorem validators_ignore_trailing_bytes
    (s e b0 b1 b2 : Nat) (rest rest' : List Nat) (cmd op : Nat) :
    check_ota_response (s :: e :: rest) cmd = check_ota_response [s, e] cmd ∧
    check_response (b0 :: b1 :: b2 :: rest') op =
      check_response [b0, b1, b2] op := by
  constructor <;> rfl

/-! ## Theorems: ESP32 OTA engine -/

theorem take_two_data (l : List Nat) : (CMD_OTA_DATA ++ l).take 2 = CMD_OTA_DATA := rfl

theorem drop_two_data (l : List Nat) : (CMD_OTA_DATA ++ l).drop 2 = l := rfl

theorem take_two_start (l : List Nat) :
    (CMD_OTA_START ++ l).take 2 = CMD_OTA_START := rfl

/-- `filterMap` restricted to a list of DATA payloads strips the codes. -/
theorem filterMap_data_writes (ws : List (List Nat))
    (hw : ∀ w ∈ ws, w.take 2 = CMD_OTA_DATA) :
    (ws.filterMap fun w =>
      if w.take 2 = CMD_OTA_DATA then some (w.drop 2) else none) =
      ws.map fun w => w.drop 2 := by
  induction ws with
  | nil => rfl
  | cons w ws ih =>
    rw [List.filterMap_cons, List.map_cons]
    have h1 := hw w (List.mem_cons_self w ws)
    rw [if_pos h1, ih fun x hx => hw x (List.mem_cons_of_mem w hx)]

/-- Invariant of the ESP32 DATA loop on a successful run: number of DATA
writes, their payloads, and the final progress invocation, as functions
of the remaining bytes. -/
theorem esp32DataLoop_spec (dev : Nat → List Nat → List Nat)
    (remaining : List Nat) (sent total k : Nat)
    (writes : List (List Nat)) (prog : List (Nat × Nat)) (k' : Nat)
    (h : esp32DataLoop dev remaining sent total k = .ok (writes, prog, k')) :
    writes.length = (remaining.length + 199) / 200 ∧
    (∀ w ∈ writes, w.take 2 = CMD_OTA_DATA) ∧
    (writes.map fun w => w.drop 2).flatten = remaining ∧
    prog.getLast? = (if remaining.length = 0 then none
      else some (sent + remaining.length, total)) := by
  rw [esp32DataLoop] at h
  by_cases hr : remaining = []
  · rw [dif_pos hr] at h
    simp only [Except.ok.injEq, Prod.mk.injEq] at h
    obtain ⟨hw, hp, hk⟩ := h
    subst hr hw hp
    exact ⟨rfl, by simp, rfl, rfl⟩
  · rw [dif_neg hr] at h
    cases hchk : check_ota_response
        (dev k (CMD_OTA_DATA ++ remaining.take ESP32_OTA_CHUNK_SIZE)) 0x47 with
    | error e => rw [hchk] at h; simp at h
    | ok u =>
      cases u
      rw [hchk] at h
      cases hrec : esp32DataLoop dev (remaining.drop ESP32_OTA_CHUNK_SIZE)
          (sent + (remaining.take ESP32_OTA_CHUNK_SIZE).length) total (k + 1) with
      | error e => rw [hrec] at h; simp at h
      | ok p =>
        obtain ⟨writes', prog', k''⟩ := p
        rw [hrec] at h
        simp only [Except.ok.injEq, Prod.mk.injEq] at h
        obtain ⟨hw, hp, hk⟩ := h
        subst hw hp
        obtain ⟨ihlen, ihtake, ihjoin, ihlast⟩ :=
          esp32DataLoop_spec dev (remaining.drop ESP32_OTA_CHUNK_SIZE)
            (sent + (remaining.take ESP32_OTA_CHUNK_SIZE).length) total (k + 1)
            writes' prog' k'' hrec
        have hlen : 0 < remaining.length := List.length_pos.mpr hr
        have htk : (remaining.take ESP32_OTA_CHUNK_SIZE).length =
            min 200 remaining.length := by
          rw [List.length_take, ESP32_OTA_CHUNK_SIZE]
        refine ⟨?_, ?_, ?_, ?_⟩
        · rw [List.length_cons, ihlen, List.length_drop, ESP32_OTA_CHUNK_SIZE]
          omega
        · intro w hmem
          rcases List.mem_cons.mp hmem with hmem | hmem
          · rw [hmem]
            exact take_two_data _
          · exact ihtake w hmem
        · rw [List.map_cons, List.flatten_cons, drop_two_data, ihjoin,
            List.take_append_drop]
        · rw [if_neg (by omega)]
          simp only [List.length_take, List.length_drop, ESP32_OTA_CHUNK_SIZE]
            at ihlast ⊢
          cases prog' with
          | nil =>
            simp only [List.getLast?_nil] at ihlast
            by_cases hd : remaining.length - 200 = 0
            · have hmin : min 200 remaining.length = remaining.length := by
                omega
              rw [List.getLast?_singleton, hmin]
            · rw [if_neg hd] at ihlast
              exact absurd ihlast.symm (by simp)
          | cons q qs =>
            rw [List.getLast?_cons_cons]
            by_cases hd : remaining.length - 200 = 0
            · rw [if_pos hd] at ihlast
              obtain ⟨y, hy⟩ := lastOfCons q qs
              rw [hy] at ihlast
              exact absurd ihlast (by simp)
            · rw [if_neg hd] at ihlast
              rw [ihlast,
                show sent + min 200 remaining.length +
                  (remaining.length - 200) = sent + remaining.length from
                  by omega]
termination_by remaining.length
decreasing_by
  have hl : 0 < remaining.length := List.length_pos.mpr hr
  simp only [List.length_drop, ESP32_OTA_CHUNK_SIZE]
  omega

/-- C1: for every firmware payload of length N, a successful
`perform_esp32_ota` run issues `ceil(N / 200)` DATA commands, their
payloads concatenate to exactly the firmware bytes (lengths summing to
N), and the final progress-callback invocation is `(N, N)` (no
invocation at all when N = 0). -/
theorem esp32_ota_chunking (dev : Nat → List Nat → List Nat)
    (firmware_data : List Nat) (b : Bool) (tr : Esp32Trace)
    (h : perform_esp32_ota dev firmware_data = .ok (b, tr)) :
    (dataPayloads tr).length = (firmware_data.length + 199) / 200 ∧
    (dataPayloads tr).flatten = firmware_data ∧
    ((dataPayloads tr).map List.length).sum = firmware_data.length ∧
    tr.progress.getLast? = (if firmware_data.length = 0 then none
      else some (firmware_data.length, firmware_data.length)) := by
  unfold perform_esp32_ota at h
  cases hc1 : check_ota_response
      (dev 0 (CMD_OTA_START ++ le32 firmware_data.length)) 0x46 with
  | error e => rw [hc1] at h; simp at h
  | ok u =>
    cases u
    rw [hc1] at h
    cases hloop : esp32DataLoop dev firmware_data 0 firmware_data.length 1 with
    | error e => rw [hloop] at h; simp at h
    | ok p =>
      obtain ⟨dataWrites, prog, k'⟩ := p
      rw [hloop] at h
      simp only [Except.ok.injEq, Prod.mk.injEq] at h
      cases hc2 : check_ota_response (dev k' CMD_OTA_END) 0x48 with
      | error e => rw [hc2] at h; simp at h
      | ok u =>
        cases u
        rw [hc2] at h
        simp only [Except.ok.injEq, Prod.mk.injEq] at h
        obtain ⟨hb, htr⟩ := h
        subst htr
        obtain ⟨hlen, htake, hjoin, hlast⟩ :=
          esp32DataLoop_spec dev firmware_data 0 firmware_data.length 1
            dataWrites prog k' hloop
        have hdp : dataPayloads ⟨(CMD_OTA_START ++ le32 firmware_data.length) ::
            dataWrites ++ [CMD_OTA_END], prog⟩ =
            dataWrites.map fun w => w.drop 2 := by
          simp only [dataPayloads]
          rw [List.filterMap_append]
          rw [show List.filterMap (fun w =>
              if w.take 2 = CMD_OTA_DATA then some (w.drop 2) else none)
              [CMD_OTA_END] = [] from rfl, List.append_nil]
          rw [show List.filterMap (fun w =>
              if w.take 2 = CMD_OTA_DATA then some (w.drop 2) else none)
              ((CMD_OTA_START ++ le32 firmware_data.length) :: dataWrites) =
            List.filterMap (fun w =>
              if w.take 2 = CMD_OTA_DATA then some (w.drop 2) else none)
              dataWrites from rfl]
          exact filterMap_data_writes dataWrites htake
        refine ⟨?_, ?_, ?_, ?_⟩
        · rw [hdp, List.length_map, hlen]
        · rw [hdp, hjoin]
        · rw [hdp, ← List.length_flatten, hjoin]
        · rw [hlast]
          simp only [Nat.zero_add]

/-- C1 witness: a 3-byte firmware against an always-acknowledging device
produces one DATA command carrying exactly the firmware, and a final
progress call of (3, 3). -/
theorem esp32_ota_chunking_witness :
    (dataPayloads esp32SmallTrace).length = (3 + 199) / 200 ∧
    (dataPayloads esp32SmallTrace).flatten = [1, 2, 3] ∧
    ((dataPayloads esp32SmallTrace).map List.length).sum = 3 ∧
    esp32SmallTrace.progress.getLast? =
      (if (3 : Nat) = 0 then none else some (3, 3)) :=
  esp32_ota_chunking ackDev [1, 2, 3] true esp32SmallTrace
    (by simp [perform_esp32_ota, esp32DataLoop, check_ota_response, ackDev,
      esp32SmallTrace, CMD_OTA_START, CMD_OTA_DATA, CMD_OTA_END,
      ESP32_OTA_CHUNK_SIZE, le32, RESP_SUCCESS, RESP_ERROR])

/-- C9: for the empty firmware payload, `perform_esp32_ota` issues zero
DATA commands and never invokes the progress callback, yet still sends
START declaring total size 0 and then END, and returns `True` when both
are acknowledged successfully. -/
theorem esp32_ota_empty_firmware (dev : Nat → List Nat → List Nat)
    (h1 : check_ota_response (dev 0 (CMD_OTA_START ++ le32 0)) 0x46 = .ok ())
    (h2 : check_ota_response (dev 1 CMD_OTA_END) 0x48 = .ok ()) :
    perform_esp32_ota dev [] =
      .ok (true, ⟨[CMD_OTA_START ++ le32 0, CMD_OTA_END], []⟩) := by
  unfold perform_esp32_ota
  simp only [List.length_nil]
  rw [h1, show esp32DataLoop dev [] 0 0 1 = .ok ([], [], 1) from
    by rw [esp32DataLoop]; rfl]
  simp only [h2]
  rfl

/-- C9 witness: against an always-acknowledging device, the empty
firmware run writes exactly START(size 0) then END, reports no progress,
and returns `True`. -/
theorem esp32_ota_empty_firmware_witness :
    check_ota_response (ackDev 0 (CMD_OTA_START ++ le32 0)) 0x46 = .ok () ∧
    check_ota_response (ackDev 1 CMD_OTA_END) 0x48 = .ok () ∧
    perform_esp32_ota ackDev [] =
      .ok (true, ⟨[CMD_OTA_START ++ le32 0, CMD_OTA_END], []⟩) :=
  ⟨rfl, rfl, esp32_ota_empty_firmware ackDev rfl rfl⟩

/-! ## Theorems: Nordic DFU engine -/

theorem writeDataLoop_flatten (chunk_size : Nat) (data : List Nat)
    (hc : 0 < chunk_size) :
    (writeDataLoop chunk_size data).flatten = data := by
  rw [writeDataLoop]
  by_cases hd : data = []
  · rw [dif_pos hd, hd]
    rfl
  · rw [dif_neg hd, dif_neg (by omega), List.flatten_cons,
      writeDataLoop_flatten chunk_size (data.drop chunk_size) hc,
      List.take_append_drop]
termination_by data.length
decreasing_by
  have hl : 0 < data.length := List.length_pos.mpr hd
  simp only [List.length_drop]
  omega

/-- `_write_data` streams exactly its input. -/
theorem write_data_flatten (data : List Nat) :
    (write_data data).flatten = data := by
  unfold write_data
  by_cases hd : data = []
  · subst hd
    rw [writeDataLoop, dif_pos rfl]
    rfl
  · exact writeDataLoop_flatten _ _
      (by have := List.length_pos.mpr hd; omega)

theorem writeDataLoop_chunk_le (chunk_size : Nat) (data : List Nat)
    (hc : chunk_size ≤ 200) :
    ∀ c ∈ writeDataLoop chunk_size data, c.length ≤ 200 := by
  intro c hmem
  rw [writeDataLoop] at hmem
  by_cases hd : data = []
  · rw [dif_pos hd] at hmem
    simp at hmem
  · by_cases h0 : chunk_size = 0
    · rw [dif_neg hd, dif_pos h0] at hmem
      simp at hmem
    · rw [dif_neg hd, dif_neg h0] at hmem
      rcases List.mem_cons.mp hmem with hcm | hcm
      · rw [hcm, List.length_take]
        omega
      · exact writeDataLoop_chunk_le chunk_size (data.drop chunk_size) hc c hcm
termination_by data.length
decreasing_by
  have hl : 0 < data.length := List.length_pos.mpr hd
  simp only [List.length_drop]
  omega

/-- Every `_write_data` sub-chunk is at most 200 bytes. -/
theorem write_data_chunk_le (data : List Nat) :
    ∀ c ∈ write_data data, c.length ≤ 200 :=
  writeDataLoop_chunk_le _ _ (by omega)

/-- The `_write_data` sub-chunk lengths sum to the input length. -/
theorem write_data_sum (data : List Nat) :
    ((write_data data).map List.length).sum = data.length := by
  rw [← List.length_flatten, write_data_flatten]

/-- Invariant of the data-object loop of `send_firmware` on a successful
run: object count, declared sizes, CREATE frames, sub-chunk bounds and
sums, and the progress sequence, as functions of the remaining bytes. -/
theorem sendFirmwareLoop_spec (dev : Nat → List Nat → List Nat)
    (firmware : List Nat) (total offset k : Nat)
    (objs : List NrfObject) (prog : List (Nat × Nat)) (k' : Nat)
    (htot : total = firmware.length)
    (h : sendFirmwareLoop dev firmware total offset k = .ok (objs, prog, k')) :
    objs.length = ((total - offset) + 4095) / 4096 ∧
    objs.map NrfObject.size = (List.range objs.length).map
      (fun i => min 4096 (total - offset - 4096 * i)) ∧
    objs.map NrfObject.create = objs.map
      (fun o => [DfuOpcode.CREATE, DfuObjectType.DATA] ++ le32 o.size) ∧
    objs.all (fun o => o.chunks.all fun c => c.length ≤ 200) = true ∧
    objs.map (fun o => (o.chunks.map List.length).sum) =
      objs.map NrfObject.size ∧
    prog = (List.range objs.length).map
      (fun i => (min (offset + 4096 * (i + 1)) total, total)) := by
  rw [sendFirmwareLoop] at h
  by_cases ho : offset < total
  case neg =>
    rw [dif_neg ho] at h
    simp only [Except.ok.injEq, Prod.mk.injEq] at h
    obtain ⟨h1, h2, h3⟩ := h
    subst h1 h2
    exact ⟨by simp only [List.length_nil]; omega, rfl, rfl, rfl, rfl, rfl⟩
  case pos =>
    rw [dif_pos ho] at h
    simp only [DFU_DATA_OBJECT_MAX_SIZE] at h
    cases hc1 : check_response (dev k ([DfuOpcode.CREATE, DfuObjectType.DATA]
        ++ le32 (min 4096 (total - offset)))) DfuOpcode.CREATE with
    | error e => rw [hc1] at h; simp at h
    | ok u =>
      cases u
      rw [hc1] at h
      cases hc2 : check_response (dev (k + 1) [DfuOpcode.CALCULATE_CRC])
          DfuOpcode.CALCULATE_CRC with
      | error e => rw [hc2] at h; simp at h
      | ok u =>
        cases u
        rw [hc2] at h
        cases hc3 : check_response (dev (k + 2) [DfuOpcode.EXECUTE])
            DfuOpcode.EXECUTE with
        | error e => rw [hc3] at h; simp at h
        | ok u =>
          cases u
          rw [hc3] at h
          cases hrec : sendFirmwareLoop dev firmware total
              (offset + min 4096 (total - offset)) (k + 3) with
          | error e => rw [hrec] at h; simp at h
          | ok p =>
            obtain ⟨objs', prog', k''⟩ := p
            rw [hrec] at h
            simp only [Except.ok.injEq, Prod.mk.injEq] at h
            obtain ⟨h1, h2, h3⟩ := h
            subst h1 h2
            obtain ⟨ihlen, ihsize, ihcreate, ihle, ihsum, ihprog⟩ :=
              sendFirmwareLoop_spec dev firmware total
                (offset + min 4096 (total - offset)) (k + 3)
                objs' prog' k'' htot hrec
            refine ⟨?_, ?_, ?_, ?_, ?_, ?_⟩
            · rw [List.length_cons, ihlen]
              omega
            · simp only [List.map_cons, List.length_cons,
                List.range_succ_eq_map, List.map_map]
              refine List.cons_eq_cons.mpr ⟨by omega, ?_⟩
              rw [ihsize]
              refine List.map_congr_left fun i hi => ?_
              simp only [Function.comp_apply]
              omega
            · simp only [List.map_cons]
              rw [ihcreate]
            · rw [List.all_cons, Bool.and_eq_true]
              refine ⟨?_, ihle⟩
              rw [List.all_eq_true]
              intro c hcmem
              simpa using write_data_chunk_le _ c hcmem
            · simp only [List.map_cons]
              refine List.cons_eq_cons.mpr ⟨?_, ihsum⟩
              rw [write_data_sum, List.length_take, List.length_drop, ← htot]
              omega
            · simp only [List.length_cons, List.range_succ_eq_map,
                List.map_cons, List.map_map]
              refine List.cons_eq_cons.mpr ⟨?_, ?_⟩
              · rw [Prod.mk.injEq]
                exact ⟨by omega, rfl⟩
              · rw [ihprog]
                refine List.map_congr_left fun i hi => ?_
                simp only [Function.comp_apply]
                rw [Prod.mk.injEq]
                exact ⟨by omega, rfl⟩
termination_by total - offset
decreasing_by omega

/-- C2: for every firmware payload of length N, a successful
`send_firmware` run issues `ceil(N / 4096)` data objects, object i being
created (CREATE frame) with declared size `min(4096, N - 4096 * i)`,
i.e. `min(4096, remaining)`; within each object the sub-chunks written
to the data characteristic are each at most 200 bytes and their lengths
sum to the object's declared size; and the progress callback is invoked
with `(offset, N)` after each object completes.  In particular the
size/progress formulas evaluate at N = 5000 to two objects of sizes
4096 and 904 and the progress sequence (4096, 5000), (5000, 5000). -/
theorem nrf_send_firmware_objects :
    (∀ (dev : Nat → List Nat → List Nat) (firmware : List Nat)
      (k : Nat) (objs : List NrfObject) (prog : List (Nat × Nat)) (k' : Nat),
      send_firmware dev firmware k = .ok (objs, prog, k') →
      objs.length = (firmware.length + 4095) / 4096 ∧
      objs.map NrfObject.size = (List.range objs.length).map
        (fun i => min 4096 (firmware.length - 4096 * i)) ∧
      objs.map NrfObject.create = objs.map
        (fun o => [DfuOpcode.CREATE, DfuObjectType.DATA] ++ le32 o.size) ∧
      objs.all (fun o => o.chunks.all fun c => c.length ≤ 200) = true ∧
      objs.map (fun o => (o.chunks.map List.length).sum) =
        objs.map NrfObject.size ∧
      prog = (List.range objs.length).map
        (fun i => (min (4096 * (i + 1)) firmware.length, firmware.length))) ∧
    (List.range ((5000 + 4095) / 4096)).map
      (fun i => min 4096 (5000 - 4096 * i)) = [4096, 904] ∧
    (List.range ((5000 + 4095) / 4096)).map
      (fun i => (min (4096 * (i + 1)) 5000, 5000)) =
      [(4096, 5000), (5000, 5000)] := by
  refine ⟨?_, by decide, by decide⟩
  intro dev firmware k objs prog k' h
  unfold send_firmware at h
  cases hsel : check_response (dev k [DfuOpcode.SELECT, DfuObjectType.DATA])
      DfuOpcode.SELECT with
  | error e => rw [hsel] at h; simp at h
  | ok u =>
    cases u
    rw [hsel] at h
    have h' : sendFirmwareLoop dev firmware firmware.length 0 (k + 1) =
        .ok (objs, prog, k') := h
    obtain ⟨l1, l2, l3, l4, l5, l6⟩ :=
      sendFirmwareLoop_spec dev firmware firmware.length 0 (k + 1)
        objs prog k' rfl h'
    simp only [Nat.sub_zero, Nat.zero_add] at l1 l2 l6
    exact ⟨l1, l2, l3, l4, l5, l6⟩

/-- C2 witness: a 1-byte firmware against an always-acknowledging device
yields one object of declared size 1, whose single 1-byte sub-chunk sums
to that size, with progress sequence (1, 1). -/
theorem nrf_send_firmware_objects_witness :
    nrfSmallObjects.length = (1 + 4095) / 4096 ∧
    nrfSmallObjects.map NrfObject.size = (List.range nrfSmallObjects.length).map
      (fun i => min 4096 (1 - 4096 * i)) ∧
    nrfSmallObjects.map NrfObject.create = nrfSmallObjects.map
      (fun o => [DfuOpcode.CREATE, DfuObjectType.DATA] ++ le32 o.size) ∧
    nrfSmallObjects.all (fun o => o.chunks.all fun c => c.length ≤ 200) = true ∧
    nrfSmallObjects.map (fun o => (o.chunks.map List.length).sum) =
      nrfSmallObjects.map NrfObject.size ∧
    [(1, 1)] = (List.range nrfSmallObjects.length).map
      (fun i => (min (4096 * (i + 1)) 1, 1)) :=
  nrf_send_firmware_objects.1 nrfAckDev [7] 0 nrfSmallObjects [(1, 1)] 4
    (by simp [send_firmware, sendFirmwareLoop, writeDataLoop, write_data,
      check_response, nrfAckDev, nrfSmallObjects, le32,
      DfuOpcode.SELECT, DfuOpcode.CREATE, DfuOpcode.CALCULATE_CRC,
      DfuOpcode.EXECUTE, DfuOpcode.RESPONSE, DfuObjectType.DATA,
      DfuResult.SUCCESS, DFU_DATA_OBJECT_MAX_SIZE])

/-- C8 counterexample: with a well-formed package and no advertisement
matching the DFU filter within the scan timeout, `perform_dfu_update`
returns `False` with an empty traffic trace — it does not raise: the
source logs an error and does `return False`. -/
theorem dfu_scan_failure_no_exception :
    perform_dfu_update none nrfAckDev wellFormedContainer =
      .ok (false, ⟨[], [], []⟩) := rfl

/-- C8 amended: if no advertisement matching the DFU filter is found
within the scan timeout, `perform_dfu_update` terminates the whole
update attempt as a failure by returning `False` (not by raising), with
no DFU protocol traffic performed and no retry. -/
theorem dfu_scan_failure_returns_false (dev : Nat → List Nat → List Nat)
    (container : List (List Char × List Nat)) (pkg : DfuPackage)
    (hp : parse_dfu_package container = .ok pkg) :
    perform_dfu_update none dev container = .ok (false, ⟨[], [], []⟩) := by
  unfold perform_dfu_update
  rw [hp]

/-- C8 witness: concrete scan failure on a parseable package. -/
theorem dfu_scan_failure_returns_false_witness :
    parse_dfu_package twoDatContainer = .ok ⟨[2], [3]⟩ ∧
    perform_dfu_update none nrfAckDev twoDatContainer =
      .ok (false, ⟨[], [], []⟩) :=
  ⟨rfl, dfu_scan_failure_returns_false nrfAckDev twoDatContainer ⟨[2], [3]⟩ rfl⟩

end OpenDisplay
